import Mathlib

/-!
Verification development for the patch-to-markup translation layer of
matplot2tikz (`src/matplot2tikz/_patch.py`).

The Python module is shallowly embedded below.  Numbers that the source
formats through the run context's float-format specifier are modelled as
rationals (`Rat`), and the format specifier itself as a function
`Rat → String` carried in the run context.  The external collaborators
(the style resolver `get_draw_options`, the path emitter `draw_path`,
the affine-transform composition `Affine2D(t).translate(*off)` applied to
a path, and the arrow style resolver `_get_arrow_style`) are parameters
(`Externals`), since only their input/output behaviour is visible to this
module.  Python `None` is modelled by `Option.none`, the mutable
run-scoped set `data["rectangle_legends"]` by a list threaded through
state-passing style, and exceptions by `Except String`.
-/

namespace Matplot2Tikz

/-- The argument record of the external style resolver, mirroring
`mypath.LineData(obj=…, ec=…, fc=…, ls=…, lw=…, hatch=…)`.  The `obj`
back-reference is omitted: the resolver is external and the embedding
quantifies over it.  Absent (`None`) attributes are `none`. -/
structure LineData where
  ec : Option String
  fc : Option String
  ls : Option String
  lw : Option String
  hatch : Option String
deriving Repr, DecidableEq

/-- The run context `data`: the float-format specifier (modelled as the
formatting function it induces), the run-scoped set
`data["rectangle_legends"]` (modelled as the list of its elements), and
the text labels of the figure's active legend (`obj.axes.get_legend()`
reached through the object's axes back-reference; `none` when no legend
exists). -/
structure TikzData where
  ff : Rat → String
  rectangle_legends : List String
  legendTexts : Option (List String)

/-- External collaborators of `_patch.py`, over a path type `P`, a
transform type `T` and an offset type `O`:
`mypath.get_draw_options`, `mypath.draw_path` (returning output text,
effective draw options and the area/line classification),
`path.transformed(Affine2D(t).translate(*off))`, and
`_text._get_arrow_style`. -/
structure Externals (P T O A : Type) where
  getDrawOptions : LineData → List String
  drawPath : P → List String → String × List String × Bool
  transformPath : T → O → P → P
  getArrowStyle : A → List String

/-- Embeds `_is_in_legend(obj)`: the object's label is among the text labels of
the axes' active legend; `False` when there is no legend. -/
def is_in_legend (data : TikzData) (label : String) : Bool :=
  match data.legendTexts with
  | none => false
  | some texts => texts.contains label

/-- Embeds `_patch_legend(obj, draw_options, legend_type)`: emit an
`\addlegendimage`/`\addlegendentry` pair when the object is in the
legend, else the empty string.  When `draw_options` is empty (falsy in
Python) the image argument is the empty string. -/
def patch_legend (data : TikzData) (label : String) (draw_options : List String)
    (legend_type : String) : String :=
  if is_in_legend data label then
    let dstr := if draw_options = [] then ""
      else String.intercalate ", " (legend_type :: draw_options)
    "\\addlegendimage\x7b" ++ dstr ++ "\x7d\n\\addlegendentry\x7b" ++ label ++ "\x7d\n\n"
  else ""

/-- A rectangle patch, as `_draw_rectangle` observes it: its label, the
cross-reference data `zip(handles, labels)` from
`obj.axes.get_legend_handles_labels()` (per handle: whether
`obj in h.get_children()`, and the handle's label), and its geometry.
`style` carries the attributes the dispatcher feeds to the style
resolver. -/
structure RectInput where
  style : LineData
  label : String
  handleLabels : List (Bool × String)
  x : Rat
  y : Rat
  width : Rat
  height : Rat

/-- The label recovery of `_draw_rectangle` lines 132–135: collect the
labels of the legend handles that contain the rectangle among their
children; when exactly one is found it supersedes the rectangle's own
label. -/
def recovered_label (inp : RectInput) : String :=
  let labels_found := (inp.handleLabels.filter (fun hl => hl.1)).map (fun hl => hl.2)
  match labels_found with
  | [l] => l
  | _ => inp.label

/-- The `\draw … rectangle …;` command of `_draw_rectangle`
lines 137–146. -/
def rect_cmd (data : TikzData) (inp : RectInput) (draw_options : List String) : String :=
  let dstr := String.intercalate "," draw_options
  let fx := data.ff inp.x
  let fy := data.ff inp.y
  let frx := data.ff (inp.x + inp.width)
  let fry := data.ff (inp.y + inp.height)
  "\\draw[" ++ dstr ++ "] (axis cs:" ++ fx ++ "," ++ fy ++
    ") rectangle (axis cs:" ++ frx ++ "," ++ fry ++ ");\n"

/-- The `ybar` legend pair of `_draw_rectangle` lines 150–152. -/
def rect_legend_pair (label : String) (draw_options : List String) : String :=
  let dstr := String.intercalate "," draw_options
  "\\addlegendimage\x7bybar,ybar legend," ++ dstr ++ "\x7d\n" ++
    "\\addlegendentry\x7b" ++ label ++ "\x7d\n\n"

/-- Embeds `_draw_rectangle(data, obj, draw_options)`.  Returns the emitted text
together with the updated run context (the source mutates
`data["rectangle_legends"]` in place; the empty-label branch returns the
empty output `[]`). -/
def draw_rectangle (data : TikzData) (inp : RectInput) (draw_options : List String) :
    String × TikzData :=
  if inp.label = "" then ("", data)
  else
    let label := recovered_label inp
    let cont := rect_cmd data inp draw_options
    if label ≠ "_nolegend_" ∧ label ∉ data.rectangle_legends then
      (cont ++ rect_legend_pair label draw_options,
       { data with rectangle_legends := label :: data.rectangle_legends })
    else (cont, data)

/-- An ellipse patch that is not a circle (circles are dispatched to
`_draw_circle` before `_draw_ellipse` does any work). -/
structure EllipseInput where
  style : LineData
  label : String
  cx : Rat
  cy : Rat
  angle : Rat
  width : Rat
  height : Rat

/-- A circle patch. -/
structure CircleInput where
  style : LineData
  label : String
  cx : Rat
  cy : Rat
  radius : Rat

/-- A generic (polygon) patch, carrying its path for the path emitter. -/
structure PolyInput (P : Type) where
  style : LineData
  label : String
  path : P

/-- A `FancyArrowPatch`: the optional direct endpoint pair
`obj._posA_posB` and the fallback `obj._path_original`. -/
structure ArrowInput (P : Type) where
  style : LineData
  label : String
  posAB : Option ((Rat × Rat) × (Rat × Rat))
  path_original : P

/-- The `rotate around={angle:(axis cs:x,y)}` directive appended by
`_draw_ellipse` line 165 for a nonzero rotation angle. -/
def rotate_directive (data : TikzData) (e : EllipseInput) : String :=
  "rotate around=\x7b" ++ data.ff e.angle ++ ":(axis cs:" ++ data.ff e.cx ++
    "," ++ data.ff e.cy ++ ")\x7d"

/-- The `\draw … ellipse …;` command of `_draw_ellipse` lines 167–171,
over the (possibly rotate-extended) draw options. -/
def ellipse_cmd (data : TikzData) (e : EllipseInput) (draw_options : List String) : String :=
  let dstr := String.intercalate "," draw_options
  "\\draw[" ++ dstr ++ "] (axis cs:" ++ data.ff e.cx ++ "," ++ data.ff e.cy ++
    ") ellipse (" ++ data.ff (1/2 * e.width) ++ " and " ++ data.ff (1/2 * e.height) ++ ");\n"

/-- Embeds `_draw_ellipse(data, obj, draw_options)` on a non-circle ellipse:
the source appends the rotation directive to `draw_options` in place
when `obj.angle != 0`, so the extended list is used both in the `\draw`
command and in the legend attempt. -/
def draw_ellipse (data : TikzData) (e : EllipseInput) (draw_options : List String) : String :=
  let dos := if e.angle ≠ 0 then draw_options ++ [rotate_directive data e] else draw_options
  ellipse_cmd data e dos ++ patch_legend data e.label dos "area legend"

/-- The `\draw … circle …;` command of `_draw_circle` line 182. -/
def circle_cmd (data : TikzData) (c : CircleInput) (draw_options : List String) : String :=
  let dstr := String.intercalate "," draw_options
  "\\draw[" ++ dstr ++ "] (axis cs:" ++ data.ff c.cx ++ "," ++ data.ff c.cy ++
    ") circle (" ++ data.ff c.radius ++ ");\n"

/-- Embeds `_draw_circle(data, obj, draw_options)`. -/
def draw_circle (data : TikzData) (c : CircleInput) (draw_options : List String) : String :=
  circle_cmd data c draw_options ++ patch_legend data c.label draw_options "area legend"

/-- Embeds `_draw_polygon(data, obj, draw_options)`: emit through the path
emitter; the legend attempt uses the original draw options (the path
emitter's effective options are discarded) and the emitter's area/line
classification. -/
def draw_polygon (E : Externals P T O (ArrowInput P)) (data : TikzData) (g : PolyInput P)
    (draw_options : List String) : String :=
  let r := E.drawPath g.path draw_options
  let legend_type := if r.2.2 then "area legend" else "line legend"
  r.1 ++ patch_legend data g.label draw_options legend_type

/-- The straight connecting line of `_draw_fancy_arrow` lines 192–196,
drawn with the arrow style directives only. -/
def arrow_line_cmd (data : TikzData) (style : List String) (pa pb : Rat × Rat) : String :=
  let dstr := String.intercalate "," style
  "\\draw[" ++ dstr ++ "] (axis cs:" ++ data.ff pa.1 ++ "," ++ data.ff pa.2 ++
    ") -- (axis cs:" ++ data.ff pb.1 ++ "," ++ data.ff pb.2 ++ ");\n"

/-- Embeds `_draw_fancy_arrow(data, obj, draw_options)`: with a direct endpoint
pair, a single straight line in arrow style; otherwise the original path
through the path emitter with the base options extended by the arrow
style.  The legend attempt always uses `"line legend"`. -/
def draw_fancy_arrow (E : Externals P T O (ArrowInput P)) (data : TikzData)
    (a : ArrowInput P) (draw_options : List String) : String :=
  let style := E.getArrowStyle a
  let content :=
    match a.posAB with
    | some (pa, pb) => arrow_line_cmd data style pa pb
    | none => (E.drawPath a.path_original (draw_options ++ style)).1
  content ++ patch_legend data a.label draw_options "line legend"

/-- The tagged variant over the patch types `draw_patch` dispatches on.
`Circle` is a Python subclass of `Ellipse`; the `circle` variant stands
for objects that are instances of both, the `ellipse` variant for
proper (non-circle) ellipses. -/
inductive Shape (P : Type) where
  | arrow (a : ArrowInput P)
  | rect (r : RectInput)
  | ellipse (e : EllipseInput)
  | circle (c : CircleInput)
  | poly (g : PolyInput P)

/-- Embeds `draw_patch(data, obj)`: arrows are special-cased first with the fill
color deliberately dropped (`fc=None`), all other shapes resolve their
draw options uniformly and branch by runtime type (rectangle, then
ellipse — which sends circles to `_draw_circle` —, then generic patch).
Only the rectangle branch updates the run context. -/
def draw_patch (E : Externals P T O (ArrowInput P)) (data : TikzData) (s : Shape P) :
    String × TikzData :=
  match s with
  | .arrow a =>
      let dos := E.getDrawOptions { a.style with fc := none }
      (draw_fancy_arrow E data a dos, data)
  | .rect r => draw_rectangle data r (E.getDrawOptions r.style)
  | .ellipse e => (draw_ellipse data e (E.getDrawOptions e.style), data)
  | .circle c => (draw_circle data c (E.getDrawOptions c.style), data)
  | .poly g => (draw_polygon E data g (E.getDrawOptions g.style), data)

/-- The `ensure_list` helper of `draw_patchcollection`: an empty array
becomes the one-element array holding the unset placeholder `None`;
a nonempty array keeps its elements (lifted into `Option` to give the
two branches one type). -/
def ensure_list (x : List α) : List (Option α) :=
  if x.length = 0 then [none] else x.map some

/-- One component of one step of `zip_modulo` (lines 70–73): element
`i % len` of the sequence, or `None` for a length-zero sequence. -/
def modGet (seq : List α) (i : Nat) : Option α :=
  seq[i % seq.length]?

/-- The element a style/transform array contributes at step `i` of the
collection loop: the array passes through `ensure_list` before
`zip_modulo` indexes into it, and a yielded placeholder propagates as
`None`. -/
def zip_elem (l : List α) (i : Nat) : Option α :=
  (modGet (ensure_list l) i).join

/-- A patch collection, as `draw_patchcollection` observes it after
`update_scalarmappable()` recomputed the face colors: the parallel
per-member arrays (paths, edge colors, face colors, line styles, line
widths, transforms, offsets) and the collection's label. -/
structure CollectionInput (P T O : Type) where
  paths : List P
  ecs : List String
  fcs : List String
  lss : List String
  ws : List String
  ts : List T
  offs : List O
  label : String

/-- The iteration count of the member loop: `zip_modulo` runs for
`max(len(seq) for seq in seqs)` steps over the seven sequences, the five
style/transform sequences counted after `ensure_list`. -/
def pc_steps (inp : CollectionInput P T O) : Nat :=
  max inp.paths.length <| max (ensure_list inp.ecs).length <|
    max (ensure_list inp.fcs).length <| max (ensure_list inp.lss).length <|
      max (ensure_list inp.ws).length <| max (ensure_list inp.ts).length inp.offs.length

/-- The draw options resolved for member `i`: `get_draw_options` on the
member's modulo-paired edge color, face color, line style and line width
(no hatch is passed in the collection branch). -/
def pc_member_dos (E : Externals P T O A) (inp : CollectionInput P T O) (i : Nat) :
    List String :=
  E.getDrawOptions
    { ec := zip_elem inp.ecs i, fc := zip_elem inp.fcs i,
      ls := zip_elem inp.lss i, lw := zip_elem inp.ws i, hatch := none }

/-- One iteration of the member loop of `draw_patchcollection`
(lines 94–103): pair the path, style elements, transform and offset for
step `i`, then emit through the path emitter — on
`path.transformed(Affine2D(t).translate(*off))` when the paired
transform `t` is present, on the raw path otherwise.  A `None` path
(empty `paths` array) raises when used, and a `None` offset (empty
`offsets` array) raises in `translate(*off)` when a transform is
present; both exceptions are modelled as `Except.error`. -/
def pc_member (E : Externals P T O A) (inp : CollectionInput P T O) (i : Nat) :
    Except String (String × List String × Bool) :=
  let dos := pc_member_dos E inp i
  match modGet inp.paths i with
  | none => .error "AttributeError: NoneType path"
  | some path =>
    match zip_elem inp.ts i with
    | none => .ok (E.drawPath path dos)
    | some t =>
      match modGet inp.offs i with
      | none => .error "TypeError: cannot unpack NoneType offset"
      | some off => .ok (E.drawPath (E.transformPath t off path) dos)

/-- The member loop of `draw_patchcollection`, run for the first `n`
steps: the emitted member blocks in order, and the values the loop
variables `draw_options`/`is_area` hold after the last executed
iteration (`none` when no iteration ran, in which case the source would
raise `NameError` after the loop). -/
def pc_loop (E : Externals P T O A) (inp : CollectionInput P T O) :
    Nat → Except String (List String × Option (List String × Bool))
  | 0 => .ok ([], none)
  | n + 1 => do
    let (cs, _) ← pc_loop E inp n
    let (cont, dos, isArea) ← pc_member E inp n
    pure (cs ++ [cont], some (dos, isArea))

/-- The trailing legend block of `draw_patchcollection` (lines 105–106):
one `_patch_legend` attempt with the loop's final draw options and the
legend type induced by the loop's final area/line classification; a
falsy (empty) legend is replaced by a single newline. -/
def collection_legend (data : TikzData) (inp : CollectionInput P T O)
    (draw_options : List String) (isArea : Bool) : String :=
  let legend_type := if isArea then "area legend" else "line legend"
  let legend := patch_legend data inp.label draw_options legend_type
  if legend = "" then "\n" else legend

/-- Embeds `draw_patchcollection(data, obj)`: run the member loop over the
modulo-zipped arrays, then append the single collection legend block. -/
def draw_patchcollection (E : Externals P T O A) (data : TikzData)
    (inp : CollectionInput P T O) : Except String (List String) := do
  let (cs, lastOpt) ← pc_loop E inp (pc_steps inp)
  match lastOpt with
  | none => .error "NameError: name is_area is not defined"
  | some (dos, isArea) => pure (cs ++ [collection_legend data inp dos isArea])

/-- Modelled from the spec: the surrounding conversion pipeline (out of
the examined core) that drives one conversion run, calling the core
"function that takes one shape object plus run context and returns
emitted text" once per shape and threading the run context (with its
run-scoped `rectangle_legends` set) through the calls, concatenating the
emitted text. -/
def run_patches (E : Externals P T O (ArrowInput P)) (data : TikzData) :
    List (Shape P) → String × TikzData
  | [] => ("", data)
  | s :: rest =>
      let r := draw_patch E data s
      let r' := run_patches E r.2 rest
      (r.1 ++ r'.1, r'.2)

/-- The labels for which one `_draw_rectangle` call emits a legend pair:
the singleton of the recovered label when the guard of line 148 holds
(and the label is nonempty so the call was not skipped), else none. -/
def rect_step (data : TikzData) (inp : RectInput) : List String :=
  if inp.label ≠ "" ∧ recovered_label inp ≠ "_nolegend_" ∧
      recovered_label inp ∉ data.rectangle_legends then
    [recovered_label inp]
  else []

/-- The rectangle legend labels emitted across a run, in order: per
shape, the labels its `_draw_rectangle` call emits a legend pair for,
with the run context threaded exactly as `run_patches` threads it. -/
def rect_emits (E : Externals P T O (ArrowInput P)) (data : TikzData) :
    List (Shape P) → List String
  | [] => []
  | s :: rest =>
      let here := match s with
        | .rect r => rect_step data r
        | _ => []
      here ++ rect_emits E (draw_patch E data s).2 rest

/-- The number of occurrences of the (nonempty) pattern `pat` in `s`:
the number of positions of `s` at which `pat` starts. -/
def countOcc (pat : List Char) : List Char → Nat
  | [] => 0
  | c :: rest => (if pat.isPrefixOf (c :: rest) then 1 else 0) + countOcc pat rest

/-- The occurrences of the `\addlegendentry` command for `label` in an
output string. -/
def count_entry (out : String) (label : String) : Nat :=
  countOcc ("\\addlegendentry\x7b" ++ label ++ "\x7d").data out.data

/-- The member-loop iteration count as the claim states it: the length
of the longest among the paths, edge-colors, face-colors, line-styles,
line-widths and transforms sequences, a length-zero sequence behaving as
a single-element sequence — the offsets array not participating.
Follows the claim's words, for comparison with `pc_steps`. -/
def claimed_steps (inp : CollectionInput P T O) : Nat :=
  max (max 1 inp.paths.length) <| max (max 1 inp.ecs.length) <|
    max (max 1 inp.fcs.length) <| max (max 1 inp.lss.length) <|
      max (max 1 inp.ws.length) (max 1 inp.ts.length)

/-! ## Concrete instances used by witnesses and counterexamples -/

/-- A concrete external-collaborator instance over `Nat` paths,
transforms and offsets: the path emitter echoes the path, keeps the draw
options, and classifies path `1` (only) as an area. -/
def Eccx : Externals Nat Nat Nat (ArrowInput Nat) :=
  { getDrawOptions := fun _ => ["red"],
    drawPath := fun p dos => ("P" ++ toString p ++ ";\n", dos, p == 1),
    transformPath := fun t off p => p + 100 * t + 1000 * off,
    getArrowStyle := fun _ => ["->"] }

/-- A concrete run context whose active legend registers the single text
label `"A"`. -/
def dataLegA : TikzData :=
  { ff := fun q => toString q.num, rectangle_legends := [], legendTexts := some ["A"] }

/-- A concrete run context without an active legend. -/
def dataNoLeg : TikzData :=
  { ff := fun q => toString q.num, rectangle_legends := [], legendTexts := none }

/-- A style record with every attribute unset. -/
def styleUnset : LineData :=
  { ec := none, fc := none, ls := none, lw := none, hatch := none }

/-- A concrete non-circle ellipse with rotation angle 45. -/
def ell45 : EllipseInput :=
  { style := styleUnset, label := "B", cx := 1, cy := 2, angle := 45,
    width := 6, height := 4 }

/-- A concrete non-circle ellipse with rotation angle 0. -/
def ell0 : EllipseInput :=
  { style := styleUnset, label := "B", cx := 1, cy := 2, angle := 0,
    width := 6, height := 4 }

/-- A concrete circle labelled `"A"`. -/
def circA : CircleInput :=
  { style := styleUnset, label := "A", cx := 0, cy := 0, radius := 1 }

/-- A concrete arrow with a direct endpoint pair. -/
def arrowAB : ArrowInput Nat :=
  { style := styleUnset, label := "A", posAB := some ((0, 0), (1, 1)),
    path_original := 7 }

/-- A concrete arrow without a direct endpoint pair. -/
def arrowNoAB : ArrowInput Nat :=
  { style := styleUnset, label := "A", posAB := none, path_original := 7 }

/-- A concrete ellipse labelled `"A"` (matching `dataLegA`'s legend). -/
def ellA : EllipseInput :=
  { style := styleUnset, label := "A", cx := 0, cy := 0, angle := 0,
    width := 0, height := 0 }

/-- A concrete collection with an empty transforms array and a nonempty
offsets array. -/
def inpRaw : CollectionInput Nat Nat Nat :=
  { paths := [5], ecs := ["e"], fcs := [], lss := [], ws := [], ts := [],
    offs := [3, 4], label := "L" }

/-- A concrete collection with nonempty transforms and offsets. -/
def inpPre : CollectionInput Nat Nat Nat :=
  { paths := [5], ecs := [], fcs := [], lss := [], ws := [], ts := [2],
    offs := [3], label := "L" }

/-- A concrete collection with nonempty transforms and EMPTY offsets. -/
def inpBad : CollectionInput Nat Nat Nat :=
  { paths := [5], ecs := [], fcs := [], lss := [], ws := [], ts := [2],
    offs := [], label := "L" }

/-- A concrete collection with one path, empty style/transform arrays
and two offsets. -/
def inpOffs : CollectionInput Nat Nat Nat :=
  { paths := [0], ecs := [], fcs := [], lss := [], ws := [], ts := [],
    offs := [5, 7], label := "L" }

/-- A concrete collection with five paths and a single edge color. -/
def inpWrap : CollectionInput Nat Nat Nat :=
  { paths := [10, 11, 12, 13, 14], ecs := ["blue"], fcs := [], lss := [], ws := [],
    ts := [], offs := [], label := "L" }

/-- A concrete two-member collection whose first member classifies as a
line and second as an area under `Eccx`. -/
def inpColl : CollectionInput Nat Nat Nat :=
  { paths := [0, 1], ecs := ["e"], fcs := [], lss := [], ws := [],
    ts := [], offs := [], label := "A" }

/-! ## Helper lemmas -/

theorem except_bind_ok {ε : Type u} {α : Type v} {β : Type w} {x : Except ε α}
    {f : α → Except ε β} {b : β} (h : x.bind f = .ok b) :
    ∃ a, x = .ok a ∧ f a = .ok b := by
  cases x with
  | error e => simp [Except.bind] at h
  | ok a => exact ⟨a, rfl, by simpa [Except.bind] using h⟩

theorem ensure_list_length (l : List α) : (ensure_list l).length = max 1 l.length := by
  cases l with
  | nil => simp [ensure_list]
  | cons a l => simp [ensure_list, Nat.max_eq_right (Nat.succ_le_succ (Nat.zero_le _))]

theorem zip_elem_nil (i : Nat) : zip_elem ([] : List α) i = none := by
  simp [zip_elem, ensure_list, modGet, Nat.mod_one]

theorem zip_elem_of_ne_nil {l : List α} (h : l ≠ []) (i : Nat) :
    zip_elem l i = l[i % l.length]? := by
  have hlen : l.length ≠ 0 := by simpa using fun h0 => h (List.length_eq_zero.mp h0)
  simp only [zip_elem, ensure_list, modGet, if_neg hlen, List.length_map,
    List.getElem?_map]
  cases l[i % l.length]? <;> simp

theorem modGet_nil (i : Nat) : modGet ([] : List α) i = none := by
  simp [modGet]

theorem modGet_of_ne_nil {l : List α} (h : l ≠ []) (i : Nat) :
    ∃ hlt : i % l.length < l.length, modGet l i = some (l.get ⟨i % l.length, hlt⟩) := by
  have hpos : 0 < l.length := List.length_pos.mpr h
  exact ⟨Nat.mod_lt i hpos, by simp [modGet, List.getElem?_eq_getElem (Nat.mod_lt i hpos)]⟩

theorem zip_elem_of_mod_self {l : List α} (h : l ≠ []) (i : Nat) :
    ∃ hlt : i % l.length < l.length, zip_elem l i = some (l.get ⟨i % l.length, hlt⟩) := by
  have hpos : 0 < l.length := List.length_pos.mpr h
  refine ⟨Nat.mod_lt i hpos, ?_⟩
  rw [zip_elem_of_ne_nil h]
  simp [List.getElem?_eq_getElem (Nat.mod_lt i hpos)]

theorem pc_steps_eq (inp : CollectionInput P T O) :
    pc_steps inp = max inp.paths.length (max (max 1 inp.ecs.length)
      (max (max 1 inp.fcs.length) (max (max 1 inp.lss.length)
        (max (max 1 inp.ws.length) (max (max 1 inp.ts.length) inp.offs.length))))) := by
  unfold pc_steps
  rw [ensure_list_length, ensure_list_length, ensure_list_length, ensure_list_length,
    ensure_list_length]

theorem pc_steps_pos (inp : CollectionInput P T O) : 1 ≤ pc_steps inp := by
  rw [pc_steps_eq]
  omega

theorem pc_loop_ok {E : Externals P T O A} {inp : CollectionInput P T O} :
    ∀ {n : Nat} {cs : List String} {lastOpt : Option (List String × Bool)},
      pc_loop E inp n = .ok (cs, lastOpt) →
      cs.length = n ∧
      (∀ j, j < n → ∃ r, pc_member E inp j = .ok r ∧ cs[j]? = some r.1) ∧
      (n ≠ 0 → ∃ r, pc_member E inp (n - 1) = .ok r ∧ lastOpt = some (r.2.1, r.2.2)) := by
  intro n
  induction n with
  | zero =>
    intro cs lastOpt h
    simp only [pc_loop, Except.ok.injEq, Prod.mk.injEq] at h
    refine ⟨by simp [← h.1], fun j hj => absurd hj (Nat.not_lt_zero j), fun h0 => absurd rfl h0⟩
  | succ n ih =>
    intro cs lastOpt h
    simp only [pc_loop, bind, Except.bind] at h
    cases hl : pc_loop E inp n with
    | error e => rw [hl] at h; simp at h
    | ok a =>
      rw [hl] at h
      obtain ⟨cs', last'⟩ := a
      cases hm : pc_member E inp n with
      | error e => rw [hm] at h; simp at h
      | ok r =>
        rw [hm] at h
        obtain ⟨cont, dos, isArea⟩ := r
        simp only [pure, Except.pure, Except.ok.injEq, Prod.mk.injEq] at h
        obtain ⟨hcs, hlast⟩ := h
        obtain ⟨hlen, helem, -⟩ := ih hl
        subst hcs
        refine ⟨by simp [hlen], ?_, ?_⟩
        · intro j hj
          rcases Nat.lt_succ_iff_lt_or_eq.mp hj with hj' | hj'
          · obtain ⟨r, hr, hget⟩ := helem j hj'
            refine ⟨r, hr, ?_⟩
            rw [List.getElem?_append, if_pos (by omega)]
            exact hget
          · subst hj'
            refine ⟨(cont, dos, isArea), hm, ?_⟩
            have : cs'.length = j := hlen
            rw [← this, List.getElem?_concat_length]
        · intro _
          exact ⟨(cont, dos, isArea), by simpa using hm, hlast.symm⟩

theorem draw_rectangle_fst (data : TikzData) (inp : RectInput) (dos : List String) :
    (draw_rectangle data inp dos).1 =
      if inp.label = "" then ""
      else rect_cmd data inp dos ++
        String.join ((rect_step data inp).map (fun l => rect_legend_pair l dos)) := by
  by_cases h0 : inp.label = ""
  · simp [draw_rectangle, rect_step, h0]
  · by_cases hc : recovered_label inp ≠ "_nolegend_" ∧
        recovered_label inp ∉ data.rectangle_legends
    · simp [draw_rectangle, rect_step, h0, hc, String.join]
    · simp [draw_rectangle, rect_step, h0, hc, String.join]

theorem draw_rectangle_legends (data : TikzData) (inp : RectInput) (dos : List String) :
    (draw_rectangle data inp dos).2.rectangle_legends =
      rect_step data inp ++ data.rectangle_legends := by
  by_cases h0 : inp.label = ""
  · simp [draw_rectangle, rect_step, h0]
  · by_cases hc : recovered_label inp ≠ "_nolegend_" ∧
        recovered_label inp ∉ data.rectangle_legends
    · simp [draw_rectangle, rect_step, h0, hc]
    · simp [draw_rectangle, rect_step, h0, hc]

theorem draw_patch_legends (E : Externals P T O (ArrowInput P)) (data : TikzData)
    (s : Shape P) :
    (draw_patch E data s).2.rectangle_legends =
      (match s with | .rect r => rect_step data r | _ => []) ++ data.rectangle_legends := by
  cases s with
  | rect r => exact draw_rectangle_legends data r _
  | arrow a => rfl
  | ellipse e => rfl
  | circle c => rfl
  | poly g => rfl

theorem rect_step_not_mem {data : TikzData} {inp : RectInput} {l : String}
    (h : l ∈ rect_step data inp) : l ∉ data.rectangle_legends := by
  by_cases hc : inp.label ≠ "" ∧ recovered_label inp ≠ "_nolegend_" ∧
      recovered_label inp ∉ data.rectangle_legends
  · rw [rect_step, if_pos hc] at h
    have hl : l = recovered_label inp := by simpa using h
    rw [hl]
    exact hc.2.2
  · rw [rect_step, if_neg hc] at h
    simp at h

theorem rect_step_mem_self {data : TikzData} {inp : RectInput} {l : String}
    (h : l ∈ rect_step data inp) : l ∈ rect_step data inp ++ data.rectangle_legends :=
  List.mem_append_left _ h

theorem rect_emits_avoid (E : Externals P T O (ArrowInput P)) :
    ∀ (shapes : List (Shape P)) (data : TikzData) (l : String),
      l ∈ rect_emits E data shapes → l ∉ data.rectangle_legends := by
  intro shapes
  induction shapes with
  | nil => intro data l h; simp [rect_emits] at h
  | cons s rest ih =>
    intro data l h
    simp only [rect_emits] at h
    rcases List.mem_append.mp h with h | h
    · cases s with
      | rect r => exact rect_step_not_mem (by simpa using h)
      | arrow a => simp at h
      | ellipse e => simp at h
      | circle c => simp at h
      | poly g => simp at h
    · intro hmem
      exact ih (draw_patch E data s).2 l h
        (by rw [draw_patch_legends]; exact List.mem_append_right _ hmem)

theorem rect_emits_nodup (E : Externals P T O (ArrowInput P)) :
    ∀ (shapes : List (Shape P)) (data : TikzData), (rect_emits E data shapes).Nodup := by
  intro shapes
  induction shapes with
  | nil => intro data; simp [rect_emits]
  | cons s rest ih =>
    intro data
    simp only [rect_emits]
    refine List.Nodup.append ?_ (ih _) ?_
    · cases s with
      | rect r =>
        simp only [rect_step]
        split
        · exact List.nodup_singleton _
        · exact List.nodup_nil
      | arrow a => exact List.nodup_nil
      | ellipse e => exact List.nodup_nil
      | circle c => exact List.nodup_nil
      | poly g => exact List.nodup_nil
    · intro l hl hl'
      have hnot := rect_emits_avoid E rest (draw_patch E data s).2 l hl'
      apply hnot
      rw [draw_patch_legends]
      cases s with
      | rect r => exact List.mem_append_left _ (by simpa using hl)
      | arrow a => simp at hl
      | ellipse e => simp at hl
      | circle c => simp at hl
      | poly g => simp at hl

theorem pc_member_no_transform (E : Externals P T O A) (inp : CollectionInput P T O)
    (i : Nat) (p : P) (hp : modGet inp.paths i = some p)
    (ht : zip_elem inp.ts i = none) :
    pc_member E inp i = .ok (E.drawPath p (pc_member_dos E inp i)) := by
  simp [pc_member, hp, ht]

theorem draw_pc_ok {E : Externals P T O A} {data : TikzData}
    {inp : CollectionInput P T O} {cs : List String}
    (h : draw_patchcollection E data inp = .ok cs) :
    ∃ cs' r, pc_loop E inp (pc_steps inp) = .ok (cs', some (r.2.1, r.2.2)) ∧
      pc_member E inp (pc_steps inp - 1) = .ok r ∧
      cs = cs' ++ [collection_legend data inp r.2.1 r.2.2] := by
  simp only [draw_patchcollection, bind, Except.bind] at h
  cases hl : pc_loop E inp (pc_steps inp) with
  | error e => rw [hl] at h; simp at h
  | ok a =>
    rw [hl] at h
    obtain ⟨cs', lastOpt⟩ := a
    obtain ⟨-, -, hlast⟩ := pc_loop_ok hl
    obtain ⟨r, hr, hlo⟩ := hlast (by have := pc_steps_pos inp; omega)
    subst hlo
    simp only [pure, Except.pure, Except.ok.injEq] at h
    exact ⟨cs', r, rfl, hr, h.symm⟩

/-! ## Claim theorems -/

/-- C3: for every rectangle whose label string is empty, `draw_patch`
(through `_draw_rectangle`) produces empty output — no drawing command,
no legend image or entry — and leaves the run-scoped legend-label set
(indeed the whole run context) unchanged. -/
theorem C3_empty_label_rect_skipped (E : Externals P T O (ArrowInput P)) (data : TikzData)
    (inp : RectInput) (dos : List String) (h : inp.label = "") :
    draw_rectangle data inp dos = ("", data) ∧
    draw_patch E data (Shape.rect inp) = ("", data) := by
  constructor
  · simp [draw_rectangle, h]
  · simp [draw_patch, draw_rectangle, h]

/-- A concrete rectangle with the empty label. -/
def rectEmpty : RectInput :=
  { style := styleUnset, label := "", handleLabels := [], x := 0, y := 0,
    width := 1, height := 1 }

/-- C3 witness: the empty-label rectangle `rectEmpty` is skipped. -/
theorem C3_witness :
    rectEmpty.label = "" ∧
    draw_rectangle dataNoLeg rectEmpty ["red"] = ("", dataNoLeg) :=
  ⟨rfl, (C3_empty_label_rect_skipped Eccx dataNoLeg rectEmpty ["red"] rfl).1⟩

/-- C1 counterexample: a rectangle whose label is the empty string has a
(recovered) label that is neither the placeholder `"_nolegend_"` nor in
the run-scoped set, yet `_draw_rectangle` emits no legend pair at all
(its output is empty) and leaves the set unchanged — contradicting the
claim, which requires an `\addlegendimage`/`\addlegendentry` pair and a
set insertion for every such rectangle. -/
theorem C1_counterexample :
    recovered_label rectEmpty ≠ "_nolegend_" ∧
    recovered_label rectEmpty ∉ dataNoLeg.rectangle_legends ∧
    draw_rectangle dataNoLeg rectEmpty ["red"] = ("", dataNoLeg) ∧
    count_entry (draw_rectangle dataNoLeg rectEmpty ["red"]).1 (recovered_label rectEmpty) = 0 :=
  ⟨by decide, by decide, rfl, by decide⟩

/-- C1 (amended): for every rectangle with a NONEMPTY label whose
(possibly recovered) label is not the placeholder `"_nolegend_"` and not
already in the run-scoped rectangle-legend set, `_draw_rectangle` emits
the rectangle drawing command followed by exactly one
`\addlegendimage`/`\addlegendentry` pair and adds the label to the set;
every subsequent rectangle in the run with a nonempty label recovering
to the same label emits its rectangle drawing command but no further
legend pair, leaving the run context unchanged.  (The nonemptiness
hypotheses are forced by the counterexample: an empty-label rectangle is
skipped before the legend logic runs.) -/
theorem C1_rect_legend_once (data : TikzData) (inp : RectInput) (dos : List String)
    (h0 : inp.label ≠ "") (h1 : recovered_label inp ≠ "_nolegend_")
    (h2 : recovered_label inp ∉ data.rectangle_legends) :
    (draw_rectangle data inp dos).1 =
      rect_cmd data inp dos ++ rect_legend_pair (recovered_label inp) dos ∧
    (draw_rectangle data inp dos).2.rectangle_legends =
      recovered_label inp :: data.rectangle_legends ∧
    ∀ (inp2 : RectInput) (dos2 : List String), inp2.label ≠ "" →
      recovered_label inp2 = recovered_label inp →
      (draw_rectangle (draw_rectangle data inp dos).2 inp2 dos2).1 =
        rect_cmd (draw_rectangle data inp dos).2 inp2 dos2 ∧
      (draw_rectangle (draw_rectangle data inp dos).2 inp2 dos2).2 =
        (draw_rectangle data inp dos).2 := by
  have hc : recovered_label inp ≠ "_nolegend_" ∧
      recovered_label inp ∉ data.rectangle_legends := ⟨h1, h2⟩
  have hD : draw_rectangle data inp dos =
      (rect_cmd data inp dos ++ rect_legend_pair (recovered_label inp) dos,
       { data with rectangle_legends := recovered_label inp :: data.rectangle_legends }) := by
    simp [draw_rectangle, h0, hc]
  refine ⟨by rw [hD], by rw [hD], ?_⟩
  intro inp2 dos2 h02 heq
  rw [hD]
  have hc2 : ¬(recovered_label inp2 ≠ "_nolegend_" ∧
      recovered_label inp2 ∉ recovered_label inp :: data.rectangle_legends) := by
    intro hcon
    exact hcon.2 (by rw [heq]; exact List.mem_cons_self _ _)
  constructor
  · simp only [draw_rectangle, if_neg h02, if_neg hc2]
  · simp only [draw_rectangle, if_neg h02, if_neg hc2]

/-- A concrete bar-chart rectangle: its own label is the placeholder,
and the legend handle cross-reference recovers the label `"bars"`. -/
def rectBar : RectInput :=
  { style := styleUnset, label := "_nolegend_", handleLabels := [(true, "bars")],
    x := 0, y := 0, width := 1, height := 1 }

/-- C1 witness: the first `rectBar` emits the drawing command plus one
legend pair; a second rectangle with the same recovered label emits only
its drawing command. -/
theorem C1_witness :
    rectBar.label ≠ "" ∧ recovered_label rectBar ≠ "_nolegend_" ∧
    recovered_label rectBar ∉ dataNoLeg.rectangle_legends ∧
    (draw_rectangle dataNoLeg rectBar ["red"]).1 =
      rect_cmd dataNoLeg rectBar ["red"] ++
        rect_legend_pair (recovered_label rectBar) ["red"] ∧
    (draw_rectangle (draw_rectangle dataNoLeg rectBar ["red"]).2 rectBar ["blue"]).1 =
      rect_cmd (draw_rectangle dataNoLeg rectBar ["red"]).2 rectBar ["blue"] := by
  have h := C1_rect_legend_once dataNoLeg rectBar ["red"] (by decide) (by decide) (by decide)
  exact ⟨by decide, by decide, by decide, h.1, (h.2.2 rectBar ["blue"] (by decide) rfl).1⟩

/-- C6 counterexample: for a concrete ellipse with angle 45 and one
pre-existing draw option `red`, the rotation directive appears at the
END of the `\draw` option list (after `red`), not before it as the claim
states. -/
theorem C6_counterexample :
    draw_ellipse dataNoLeg ell45 ["red"] =
      "\\draw[red,rotate around=\x7b45:(axis cs:1,2)\x7d] (axis cs:1,2) ellipse (3 and 2);\n" ∧
    draw_ellipse dataNoLeg ell45 ["red"] ≠
      "\\draw[rotate around=\x7b45:(axis cs:1,2)\x7d,red] (axis cs:1,2) ellipse (3 and 2);\n" := by
  constructor
  · with_unfolding_all rfl
  · intro h
    rw [show draw_ellipse dataNoLeg ell45 ["red"] =
      "\\draw[red,rotate around=\x7b45:(axis cs:1,2)\x7d] (axis cs:1,2) ellipse (3 and 2);\n"
      from by with_unfolding_all rfl] at h
    exact absurd h (by decide)

/-- C6 (amended): a non-circle ellipse with rotation angle `0` emits no
rotation directive (the draw options are used unchanged); with a nonzero
angle the `rotate around={angle:(axis cs:x,y)}` directive is APPENDED at
the end of the draw options list, so it appears after the pre-existing
draw option directives in the `\draw` command's option list (and also in
the legend attempt's options). -/
theorem C6_rotate_appended (data : TikzData) (e : EllipseInput) (dos : List String) :
    (e.angle = 0 → draw_ellipse data e dos =
      ellipse_cmd data e dos ++ patch_legend data e.label dos "area legend") ∧
    (e.angle ≠ 0 → draw_ellipse data e dos =
      ellipse_cmd data e (dos ++ [rotate_directive data e]) ++
        patch_legend data e.label (dos ++ [rotate_directive data e]) "area legend") := by
  constructor
  · intro h; simp [draw_ellipse, h]
  · intro h; simp [draw_ellipse, h]

/-- C6 witness: both branches at concrete ellipses (`ell0` with angle 0,
`ell45` with angle 45). -/
theorem C6_witness :
    draw_ellipse dataNoLeg ell0 ["red"] =
      ellipse_cmd dataNoLeg ell0 ["red"] ++
        patch_legend dataNoLeg ell0.label ["red"] "area legend" ∧
    draw_ellipse dataNoLeg ell45 ["red"] =
      ellipse_cmd dataNoLeg ell45 (["red"] ++ [rotate_directive dataNoLeg ell45]) ++
        patch_legend dataNoLeg ell45.label
          (["red"] ++ [rotate_directive dataNoLeg ell45]) "area legend" :=
  ⟨(C6_rotate_appended dataNoLeg ell0 ["red"]).1 (by norm_num [ell0]),
   (C6_rotate_appended dataNoLeg ell45 ["red"]).2 (by norm_num [ell45])⟩

/-- The `_patch_legend` pair string is never the empty string. -/
theorem legend_pair_ne_empty (a label : String) :
    "\\addlegendimage\x7b" ++ a ++ "\x7d\n\\addlegendentry\x7b" ++ label ++
      "\x7d\n\n" ≠ "" := by
  intro h
  have hlen := congrArg String.length h
  simp only [String.length_append] at hlen
  have h1 : ("\\addlegendimage\x7b" : String).length = 16 := by decide
  have h2 : ("" : String).length = 0 := by decide
  omega

/-- The guard of `_patch_legend`, spelt out: the object is in the legend
iff a legend exists and its text labels include the object's label. -/
theorem is_in_legend_iff (data : TikzData) (label : String) :
    is_in_legend data label = true ↔
      ∃ ts, data.legendTexts = some ts ∧ label ∈ ts := by
  cases hlt : data.legendTexts with
  | none => simp [is_in_legend, hlt]
  | some ts => simp [is_in_legend, hlt, List.contains]

/-- C7 counterexample: _patch_legend for a shape whose style resolver
produced an EMPTY draw-options list emits `\addlegendimage{}` — the
legend type is dropped entirely, so the block does not have the claimed
exact form `\addlegendimage{<legend-type>, <comma-joined directives>}`
(under either reading of the joined form).  Exhibited both at the
`_patch_legend` level and on a concrete circle. -/
theorem C7_counterexample :
    patch_legend dataLegA "A" [] "area legend" =
      "\\addlegendimage\x7b\x7d\n\\addlegendentry\x7bA\x7d\n\n" ∧
    patch_legend dataLegA "A" [] "area legend" ≠
      "\\addlegendimage\x7barea legend\x7d\n\\addlegendentry\x7bA\x7d\n\n" ∧
    patch_legend dataLegA "A" [] "area legend" ≠
      "\\addlegendimage\x7barea legend, \x7d\n\\addlegendentry\x7bA\x7d\n\n" ∧
    draw_circle dataLegA circA [] =
      circle_cmd dataLegA circA [] ++
        "\\addlegendimage\x7b\x7d\n\\addlegendentry\x7bA\x7d\n\n" := by
  refine ⟨by decide, by decide, by decide, ?_⟩
  show circle_cmd dataLegA circA [] ++ patch_legend dataLegA circA.label [] "area legend" = _
  rw [show patch_legend dataLegA circA.label [] "area legend" =
    "\\addlegendimage\x7b\x7d\n\\addlegendentry\x7bA\x7d\n\n" from by decide]

/-- C7 (amended): for every non-rectangle shape, a legend block is
emitted iff the figure has an active legend whose registered text labels
include the shape's label (in particular, nothing is emitted when no
legend exists).  When emitted with a NONEMPTY draw-options list the
block is exactly `\addlegendimage{<legend-type>, <comma-joined
directives>}` followed by `\addlegendentry{<label>}` and a blank
trailing line; with an empty draw-options list the image argument
degenerates to the empty string (`\addlegendimage{}`), dropping the
legend type. -/
theorem C7_legend_block_format (data : TikzData) (label : String) (dos : List String)
    (lt : String) :
    (patch_legend data label dos lt ≠ "" ↔
      ∃ ts, data.legendTexts = some ts ∧ label ∈ ts) ∧
    (data.legendTexts = none → patch_legend data label dos lt = "") ∧
    (is_in_legend data label = true → dos ≠ [] →
      patch_legend data label dos lt =
        "\\addlegendimage\x7b" ++ String.intercalate ", " (lt :: dos) ++
          "\x7d\n\\addlegendentry\x7b" ++ label ++ "\x7d\n\n") ∧
    (is_in_legend data label = true → dos = [] →
      patch_legend data label dos lt =
        "\\addlegendimage\x7b\x7d\n\\addlegendentry\x7b" ++ label ++ "\x7d\n\n") := by
  refine ⟨?_, ?_, ?_, ?_⟩
  · rw [← is_in_legend_iff]
    by_cases hin : is_in_legend data label = true
    · simp only [patch_legend, if_pos hin]
      constructor
      · intro _; exact hin
      · intro _; exact legend_pair_ne_empty _ _
    · simp only [patch_legend, if_neg hin]
      constructor
      · intro h; exact absurd rfl h
      · intro h; exact absurd h hin
  · intro h
    have : is_in_legend data label = false := by simp [is_in_legend, h]
    simp [patch_legend, this]
  · intro hin hdos
    simp only [patch_legend, if_pos hin, if_neg hdos]
  · intro hin hdos
    subst hdos
    simp only [patch_legend, if_pos hin, if_true]
    rw [show ("\\addlegendimage\x7b" : String) ++ "" = "\\addlegendimage\x7b" from by decide]
    rw [show ("\\addlegendimage\x7b" : String) ++ "\x7d\n\\addlegendentry\x7b" =
      "\\addlegendimage\x7b\x7d\n\\addlegendentry\x7b" from by decide]

/-- C7 witness: both emission branches on concrete data. -/
theorem C7_witness :
    (patch_legend dataLegA "A" ["red"] "area legend" ≠ "" ↔
      ∃ ts, dataLegA.legendTexts = some ts ∧ "A" ∈ ts) ∧
    patch_legend dataNoLeg "A" ["red"] "area legend" = "" ∧
    patch_legend dataLegA "A" ["red"] "area legend" =
      "\\addlegendimage\x7b" ++ String.intercalate ", " ["area legend", "red"] ++
        "\x7d\n\\addlegendentry\x7b" ++ "A" ++ "\x7d\n\n" :=
  ⟨(C7_legend_block_format dataLegA "A" ["red"] "area legend").1,
   (C7_legend_block_format dataNoLeg "A" ["red"] "area legend").2.1 rfl,
   (C7_legend_block_format dataLegA "A" ["red"] "area legend").2.2.1 (by decide) (by decide)⟩

/-- C9: an arrow with a direct endpoint pair is drawn as a single
straight connecting line in the arrow style directives, and its output
does not depend on the path emitter at all (any two collaborator records
agreeing on the arrow style resolver give the same output); an arrow
without an endpoint pair is always emitted through the path emitter on
its original path with the base options extended by the arrow style.  In
both cases the trailing legend attempt uses `"line legend"`. -/
theorem C9_arrow_direct_or_path (E : Externals P T O (ArrowInput P)) (data : TikzData)
    (a : ArrowInput P) (dos : List String) :
    (∀ pa pb, a.posAB = some (pa, pb) →
      draw_fancy_arrow E data a dos =
        arrow_line_cmd data (E.getArrowStyle a) pa pb ++
          patch_legend data a.label dos "line legend" ∧
      ∀ (E' : Externals P T O (ArrowInput P)), E'.getArrowStyle = E.getArrowStyle →
        draw_fancy_arrow E' data a dos = draw_fancy_arrow E data a dos) ∧
    (a.posAB = none →
      draw_fancy_arrow E data a dos =
        (E.drawPath a.path_original (dos ++ E.getArrowStyle a)).1 ++
          patch_legend data a.label dos "line legend") := by
  constructor
  · intro pa pb h
    constructor
    · simp [draw_fancy_arrow, h]
    · intro E' hE
      simp [draw_fancy_arrow, h, hE]
  · intro h
    simp [draw_fancy_arrow, h]

/-- C9 witness: both arrow branches at concrete arrows. -/
theorem C9_witness :
    draw_fancy_arrow Eccx dataLegA arrowAB ["red"] =
      arrow_line_cmd dataLegA (Eccx.getArrowStyle arrowAB) (0, 0) (1, 1) ++
        patch_legend dataLegA arrowAB.label ["red"] "line legend" ∧
    draw_fancy_arrow Eccx dataLegA arrowNoAB ["red"] =
      (Eccx.drawPath arrowNoAB.path_original (["red"] ++ Eccx.getArrowStyle arrowNoAB)).1 ++
        patch_legend dataLegA arrowNoAB.label ["red"] "line legend" :=
  ⟨((C9_arrow_direct_or_path Eccx dataLegA arrowAB ["red"]).1 (0, 0) (1, 1) rfl).1,
   (C9_arrow_direct_or_path Eccx dataLegA arrowNoAB ["red"]).2 rfl⟩

set_option maxRecDepth 10000 in
/-- C8 counterexample: one run containing two non-rectangle shapes (two
ellipses) sharing the label `"A"`, which is registered in the active
legend, emits the `\addlegendentry{A}` command twice — the multiset of
legend labels emitted across the run has a duplicate, because only the
rectangle path deduplicates through the run-scoped set. -/
theorem C8_counterexample :
    count_entry (run_patches Eccx dataLegA [Shape.ellipse ellA, Shape.ellipse ellA]).1 "A" =
      2 := by
  with_unfolding_all rfl

/-- C8 (amended): the deduplication invariant holds for RECTANGLE legend
entries only: across one run, the labels for which rectangle legend
pairs are emitted are pairwise distinct (and none of them was in the
run-scoped set initially); per call, `_draw_rectangle` emits its drawing
command followed by legend pairs for exactly the labels `rect_step`
records.  Non-rectangle shapes are not deduplicated (see the
counterexample). -/
theorem C8_rect_entries_unique (E : Externals P T O (ArrowInput P)) (data : TikzData)
    (shapes : List (Shape P)) :
    (rect_emits E data shapes).Nodup ∧
    (∀ l ∈ rect_emits E data shapes, l ∉ data.rectangle_legends) ∧
    ∀ (d : TikzData) (r : RectInput) (dos : List String),
      (draw_rectangle d r dos).1 =
        if r.label = "" then ""
        else rect_cmd d r dos ++
          String.join ((rect_step d r).map (fun l => rect_legend_pair l dos)) :=
  ⟨rect_emits_nodup E shapes data,
   fun l hl => rect_emits_avoid E shapes data l hl,
   fun d r dos => draw_rectangle_fst d r dos⟩

/-- C8 witness: a run with two occurrences of the same rectangle emits
its recovered label exactly once. -/
theorem C8_witness :
    (rect_emits Eccx dataNoLeg [Shape.rect rectBar, Shape.rect rectBar]).Nodup ∧
    rect_emits Eccx dataNoLeg [Shape.rect rectBar, Shape.rect rectBar] = ["bars"] ∧
    "bars" ∉ dataNoLeg.rectangle_legends :=
  ⟨(C8_rect_entries_unique Eccx dataNoLeg [Shape.rect rectBar, Shape.rect rectBar]).1,
   by decide,
   (C8_rect_entries_unique Eccx dataNoLeg [Shape.rect rectBar, Shape.rect rectBar]).2.1
     "bars" (by decide)⟩

/-- C5: a collection member whose paired transform is absent — in
particular every member when the transforms array is empty — has its raw
path passed unmodified to the path emitter: the member's output is
exactly `draw_path` on the stored path, with no transform/offset
composition involved (this holds for every collaborator record, hence
for every offsets array, nonempty or not). -/
theorem C5_absent_transform_raw_path (E : Externals P T O A)
    (inp : CollectionInput P T O) (i : Nat) (p : P)
    (hp : modGet inp.paths i = some p) :
    (zip_elem inp.ts i = none →
      pc_member E inp i = .ok (E.drawPath p (pc_member_dos E inp i))) ∧
    (inp.ts = [] →
      pc_member E inp i = .ok (E.drawPath p (pc_member_dos E inp i))) := by
  refine ⟨fun ht => pc_member_no_transform E inp i p hp ht, fun h => ?_⟩
  exact pc_member_no_transform E inp i p hp (by rw [h]; exact zip_elem_nil i)

/-- C5 witness: a concrete collection with an empty transforms array and
a NONEMPTY offsets array; the member is emitted on its raw path. -/
theorem C5_witness :
    modGet inpRaw.paths 0 = some 5 ∧ inpRaw.ts = [] ∧ inpRaw.offs ≠ [] ∧
    pc_member Eccx inpRaw 0 = .ok (Eccx.drawPath 5 (pc_member_dos Eccx inpRaw 0)) :=
  ⟨rfl, rfl, by decide,
   (C5_absent_transform_raw_path Eccx inpRaw 0 5 rfl).2 rfl⟩

/-- C10: the offsets array is zipped raw (without the
empty-array-to-placeholder substitution), so an empty offsets array
pairs the `None` offset with every member.  Under the precondition that
the offsets array is nonempty whenever the transforms array is nonempty,
every member with a path succeeds (the unpack-error branch is
unreachable); conversely, with a nonempty transforms array and an empty
offsets array every member with a path hits exactly that error. -/
theorem C10_offsets_precondition (E : Externals P T O A)
    (inp : CollectionInput P T O) :
    ((inp.ts ≠ [] → inp.offs ≠ []) → ∀ i p, modGet inp.paths i = some p →
      ∃ r, pc_member E inp i = .ok r) ∧
    (inp.ts ≠ [] → inp.offs = [] → ∀ i p, modGet inp.paths i = some p →
      pc_member E inp i = .error "TypeError: cannot unpack NoneType offset") := by
  constructor
  · intro hpre i p hp
    by_cases hts : inp.ts = []
    · exact ⟨_, pc_member_no_transform E inp i p hp (by rw [hts]; exact zip_elem_nil i)⟩
    · obtain ⟨hlt, ht⟩ := zip_elem_of_mod_self hts i
      obtain ⟨hlo, hoff⟩ := modGet_of_ne_nil (hpre hts) i
      refine ⟨E.drawPath (E.transformPath (inp.ts.get ⟨i % inp.ts.length, hlt⟩)
        (inp.offs.get ⟨i % inp.offs.length, hlo⟩) p) (pc_member_dos E inp i), ?_⟩
      simp [pc_member, hp, ht, hoff]
  · intro hts hoffs i p hp
    obtain ⟨hlt, ht⟩ := zip_elem_of_mod_self hts i
    have hoff : modGet inp.offs i = none := by rw [hoffs]; exact modGet_nil i
    simp [pc_member, hp, ht, hoff]

/-- C10 witness: with transforms and offsets both nonempty the member
succeeds; with transforms nonempty and offsets empty it raises. -/
theorem C10_witness :
    (∃ r, pc_member Eccx inpPre 0 = .ok r) ∧
    pc_member Eccx inpBad 0 = .error "TypeError: cannot unpack NoneType offset" :=
  ⟨(C10_offsets_precondition Eccx inpPre).1 (fun _ => by decide) 0 5 rfl,
   (C10_offsets_precondition Eccx inpBad).2 (by decide) rfl 0 5 rfl⟩

/-- C2 counterexample: the member loop's iteration count includes the
OFFSETS array in the maximum, which the claim omits.  For a collection
with one path, all style/transform arrays empty and two offsets, the
claim predicts one iteration, but the code runs two: the returned
content has two member blocks (plus the trailing legend block). -/
theorem C2_counterexample :
    claimed_steps inpOffs = 1 ∧ pc_steps inpOffs = 2 ∧
    draw_patchcollection Eccx dataNoLeg inpOffs = .ok ["P0;\n", "P0;\n", "\n"] := by
  refine ⟨rfl, rfl, by with_unfolding_all rfl⟩

/-- C2 (amended): the member loop runs for `max` over the lengths of ALL
SEVEN zipped sequences — paths, edge colors, face colors, line styles,
line widths, transforms AND offsets — where each of the five
style/transform arrays counts as length 1 when empty (it is replaced by
the single-element `[None]`); the count is never zero.  A nonempty
sequence contributes element `i mod length` at step `i`; an empty
style/transform array contributes the unset placeholder (no style
override) at every step.  On a successful run the returned content has
exactly one block per iteration plus the trailing legend block. -/
theorem C2_zip_modulo_semantics (E : Externals P T O A) (data : TikzData)
    (inp : CollectionInput P T O) (α : Type v) :
    1 ≤ pc_steps inp ∧
    pc_steps inp = max inp.paths.length (max (max 1 inp.ecs.length)
      (max (max 1 inp.fcs.length) (max (max 1 inp.lss.length)
        (max (max 1 inp.ws.length) (max (max 1 inp.ts.length) inp.offs.length))))) ∧
    (∀ (l : List α) (i : Nat), l ≠ [] → zip_elem l i = l[i % l.length]?) ∧
    (∀ (l : List α) (i : Nat), l = [] → zip_elem l i = none) ∧
    (∀ i, pc_member_dos E inp i = E.getDrawOptions
      { ec := zip_elem inp.ecs i, fc := zip_elem inp.fcs i, ls := zip_elem inp.lss i,
        lw := zip_elem inp.ws i, hatch := none }) ∧
    (∀ cs, draw_patchcollection E data inp = .ok cs →
      cs.length = pc_steps inp + 1) := by
  refine ⟨pc_steps_pos inp, pc_steps_eq inp,
    fun l i hl => zip_elem_of_ne_nil hl i,
    fun l i hl => by rw [hl]; exact zip_elem_nil i,
    fun i => rfl, ?_⟩
  intro cs h
  obtain ⟨cs', r, hl, -, hcs⟩ := draw_pc_ok h
  obtain ⟨hlen, -, -⟩ := pc_loop_ok hl
  rw [hcs]
  simp [hlen]

/-- C2 witness: the spec's own example — five paths against an
edge-colors array of length one — iterates five times, with the single
edge color selected by wraparound at every step; the style arrays'
empty-array case yields the placeholder. -/
theorem C2_witness :
    1 ≤ pc_steps inpWrap ∧
    pc_steps inpWrap = 5 ∧
    zip_elem inpWrap.ecs 4 = inpWrap.ecs[4 % inpWrap.ecs.length]? ∧
    inpWrap.ecs[4 % inpWrap.ecs.length]? = some "blue" ∧
    zip_elem ([] : List String) 4 = none ∧
    (["P10;\n", "P11;\n", "P12;\n", "P13;\n", "P14;\n", "\n"] : List String).length =
      pc_steps inpWrap + 1 := by
  have h := C2_zip_modulo_semantics Eccx dataNoLeg inpWrap String
  exact ⟨h.1, by decide, h.2.2.1 inpWrap.ecs 4 (by decide), by decide,
    h.2.2.2.1 [] 4 rfl,
    h.2.2.2.2.2 ["P10;\n", "P11;\n", "P12;\n", "P13;\n", "P14;\n", "\n"]
      (by with_unfolding_all rfl)⟩

/-- C4: on every successful collection run the returned content is the
member drawing blocks (one per loop iteration, in order) followed by
exactly one legend block, and that legend block's area/line legend type
comes from the classification the path emitter returned for the LAST
member processed in the loop. -/
theorem C4_last_member_classifies_legend (E : Externals P T O A) (data : TikzData)
    (inp : CollectionInput P T O) (cs : List String)
    (h : draw_patchcollection E data inp = .ok cs) :
    ∃ members r, pc_member E inp (pc_steps inp - 1) = .ok r ∧
      members.length = pc_steps inp ∧
      (∀ j, j < pc_steps inp → ∃ rj, pc_member E inp j = .ok rj ∧ members[j]? = some rj.1) ∧
      cs = members ++ [collection_legend data inp r.2.1 r.2.2] := by
  obtain ⟨cs', r, hl, hr, hcs⟩ := draw_pc_ok h
  obtain ⟨hlen, helem, -⟩ := pc_loop_ok hl
  exact ⟨cs', r, hr, hlen, fun j hj => by rw [← hlen] at hj; exact helem j (by omega), hcs⟩

/-- C4 witness: a concrete two-member collection where the first member
classifies as a line and the second (last) as an area: the single
trailing legend block uses `"area legend"`. -/
theorem C4_witness :
    pc_member Eccx inpColl 0 = .ok ("P0;\n", ["red"], false) ∧
    pc_member Eccx inpColl 1 = .ok ("P1;\n", ["red"], true) ∧
    draw_patchcollection Eccx dataLegA inpColl =
      .ok ["P0;\n", "P1;\n",
        "\\addlegendimage\x7barea legend, red\x7d\n\\addlegendentry\x7bA\x7d\n\n"] ∧
    (∃ members r, pc_member Eccx inpColl (pc_steps inpColl - 1) = .ok r ∧
      members.length = pc_steps inpColl ∧
      (∀ j, j < pc_steps inpColl →
        ∃ rj, pc_member Eccx inpColl j = .ok rj ∧ members[j]? = some rj.1) ∧
      ["P0;\n", "P1;\n",
        "\\addlegendimage\x7barea legend, red\x7d\n\\addlegendentry\x7bA\x7d\n\n"] =
        members ++ [collection_legend dataLegA inpColl r.2.1 r.2.2]) :=
  ⟨by with_unfolding_all rfl, by with_unfolding_all rfl, by with_unfolding_all rfl,
   C4_last_member_classifies_legend Eccx dataLegA inpColl _ (by with_unfolding_all rfl)⟩

end Matplot2Tikz
